import Mathlib

/-!
Shallow embedding of `src/app/components/NoteEditor.jsx` (NoteSpace).

The component is a single React function component.  We embed:
  * its props and local state as Lean structures;
  * each async function (`loadNote`, `saveNote`) as a pair of pure
    transition functions (start / completion), since they suspend exactly
    once at the network boundary;
  * the edit-handling `useEffect` (lines 85-105) as a pure function on an
    explicit "world" that also carries the two debounce slots and the log
    of externally observable effects (HTTP requests, callback invocations,
    console errors);
  * sessions as folds of timed events (keystroke edits, load completion,
    unmount) over the mounted world, with trailing-edge debounce timers
    fired when due.

JS truthiness on `noteId` (a string prop: absent, null and "" are all
falsy) is made explicit via `noteIdTruthy`.  React semantics used by the
embedding: effects run after every render in which one of their
dependencies changed; the load effect's dependencies `[noteId,
initialData]` never change during a session, so it runs exactly once, at
mount; the edit effect's dependencies are `[value, title, logoText]`;
calling a state setter with an unchanged value does not re-run effects.
State setters are modelled as direct writes to the component state — the
embedding records exactly which writes the component code performs, and
whether it guards them with the `isMounted` liveness ref.
-/

namespace NoteSpace

/-- Shape of `initialData` (and of the load response's `data` field):
an object with optional `title` and `content` string fields. -/
structure NoteData where
  title : Option String
  content : Option String
deriving DecidableEq

/-- The component's props (line 8).  The two change callbacks are opaque
functions; we only record whether each was supplied, and log their
invocations as effects.  Note the source destructures the `onContentChange`
property twice (once as `onContentChange`, once aliased to
`onHomepageContentChange`), so both names are bound to the same prop;
a single `onContentChange` flag therefore models both. -/
structure Props where
  noteId : Option String
  initialData : Option NoteData
  logoText : String
  onContentChange : Bool
  onTitleChange : Bool
  isDisabled : Bool
deriving DecidableEq

/-- The component's local state (lines 10-13) plus the `isMounted` liveness
ref (line 16). -/
structure CState where
  value : String
  title : String
  isLoading : Bool
  isSaving : Bool
  mounted : Bool
deriving DecidableEq

/-- JSON body of the save request (lines 62-66). -/
structure SaveBody where
  content : String
  title : String
  logoText : String
deriving DecidableEq

/-- Externally observable effects: HTTP requests, callback invocations and
console errors. `titleCb`/`contentCb` are the immediate notifications
(lines 89-94); `homepageCb` is the debounced homepage notification
(lines 79-83). -/
inductive Eff where
  | getReq (url : String)
  | putReq (url : String) (body : SaveBody)
  | titleCb (title : String)
  | contentCb (content : String)
  | homepageCb (content : String) (title : String)
  | logError (msg : String)
deriving DecidableEq

/-- JS truthiness of the `noteId` prop: `!noteId` is true exactly when the
prop is absent/null or the empty string. -/
def noteIdTruthy : Option String → Bool
  | none => false
  | some s => !(s == (""))

/-- The request URL built by the template literal `/api/note/${noteId}`
(lines 37 and 59); only evaluated when `noteId` is truthy. -/
def noteUrl (noteId : Option String) : String :=
  ("/api/note/") ++ noteId.getD ("")

/-- Initial component state (lines 10-13, 16):
`value = initialData?.content || ""`, `title = initialData?.title || ""`,
`isLoading = !initialData && !!noteId`, `isSaving = false`, and the
`isMounted` ref starts true. -/
def initState (p : Props) : CState :=
  { value := (p.initialData.bind (fun d => d.content)).getD (""),
    title := (p.initialData.bind (fun d => d.title)).getD (""),
    isLoading := p.initialData.isNone && noteIdTruthy p.noteId,
    isSaving := false,
    mounted := true }

/-- Outcome of the load fetch as observed by `loadNote` (lines 37-38):
either `fetch`/`res.json()` threw, or JSON was parsed, with a truthy or
falsy `success` flag and an optional `data` object. -/
inductive LoadResult where
  | fetchError
  | response (success : Bool) (data : Option NoteData)
deriving DecidableEq

/-- The load `useEffect` body at mount (lines 30-52, up to the `await`):
returns early when `!noteId || initialData`; otherwise `setIsLoading(true)`
and the GET request is issued. -/
def loadEffect (p : Props) (st : CState) : CState × List Eff :=
  if !(noteIdTruthy p.noteId) || p.initialData.isSome then (st, [])
  else ({ st with isLoading := true }, [Eff.getReq (noteUrl p.noteId)])

/-- Resumption of `loadNote` after the fetch resolves (lines 38-48).
On a truthy `success` with a `data` object: `setValue(data.data.content
|| "")`, `setTitle(data.data.title || "")`.  A missing `data` object makes
the member access throw, landing in the `catch`.  The `finally` block runs
`setIsLoading(false)` on every path.  None of these setter calls is
guarded by the `isMounted` ref. -/
def loadNoteComplete (r : LoadResult) (st : CState) : CState × List Eff :=
  match r with
  | .fetchError => ({ st with isLoading := false }, [Eff.logError ("Failed to load note:")])
  | .response success data =>
    if success then
      match data with
      | some d =>
        ({ st with value := d.content.getD (""), title := d.title.getD (""),
                   isLoading := false }, [])
      | none => ({ st with isLoading := false }, [Eff.logError ("Failed to load note:")])
    else ({ st with isLoading := false }, [])

/-- `saveNote` up to the `await` (lines 55-67): early return when
`!noteId`; otherwise `if (isMounted.current) setIsSaving(true)` and the PUT
request with body `{content, title, logoText}` is issued. -/
def saveNoteStart (noteId : Option String) (st : CState)
    (newContent newTitle newLogo : String) : CState × List Eff :=
  if noteIdTruthy noteId then
    ((if st.mounted then { st with isSaving := true } else st),
     [Eff.putReq (noteUrl noteId) ⟨newContent, newTitle, newLogo⟩])
  else (st, [])

/-- Resumption of `saveNote` after the fetch settles (lines 68-72): on
rejection the error is logged; the `finally` block runs
`if (isMounted.current) setIsSaving(false)` on both paths. -/
def saveNoteComplete (ok : Bool) (st : CState) : CState × List Eff :=
  ((if st.mounted then { st with isSaving := false } else st),
   if ok then [] else [Eff.logError ("Failed to save:")])

/-- Modelled from the spec: the `debounce` helper imported from
`lib/utils` (line 6) is not among the available sources.  Per the spec
(section 9 Design Notes and the Glossary) it is a trailing-edge debounce:
each new trigger cancels any pending scheduled task and arms a fresh timer
for the full delay, capturing the arguments of that trigger, so only the
last trigger of a burst executes.  A pending task is modelled as the
deadline paired with the captured arguments. -/
def debounceTrigger {α : Type} (delay now : Nat) (args : α)
    (_pending : Option (Nat × α)) : Option (Nat × α) :=
  some (now + delay, args)

/-- A user keystroke in the title input (line 142) or the textarea
(line 151). -/
inductive EditAction where
  | setValue (s : String)
  | setTitle (s : String)
deriving DecidableEq

/-- Effect of a keystroke on the local state (`setTitle`/`setValue`). -/
def applyEdit : EditAction → CState → CState
  | .setValue s, st => { st with value := s }
  | .setTitle s, st => { st with title := s }

/-- The whole component instance together with its environment: props,
state, the two pending debounced tasks (`debouncedSave`, line 76, and
`debouncedContentChange`, line 79), whether the load fetch is in flight,
and the log of observable effects. -/
structure EditorWorld where
  props : Props
  st : CState
  saveDeb : Option (Nat × SaveBody)
  homeDeb : Option (Nat × (String × String))
  inFlightLoad : Bool
  effs : List Eff
deriving DecidableEq

/-- The edit-handling `useEffect` body (lines 85-105), run after any render
in which `value`, `title` or `logoText` changed (and once at mount):
1. `adjustHeight()` — DOM only, no state effect;
2. immediately notify `onTitleChange(title)` when supplied (lines 89-91);
3. immediately notify `onContentChange(value)` when supplied and `noteId`
   is truthy (lines 92-94);
4. when `noteId` is truthy and `!isLoading`, trigger the 1000ms debounced
   save with `(value, title, logoText)` (lines 96-99);
5. when `noteId` is falsy and the homepage callback is supplied, trigger
   the 500ms debounced notification with `(value, title)` (lines 101-104).
The homepage callback alias `onHomepageContentChange` is the same prop as
`onContentChange` (see `Props`). -/
def runEditEffect (now : Nat) (w : EditorWorld) : EditorWorld :=
  let effs1 := if w.props.onTitleChange then [Eff.titleCb w.st.title] else []
  let effs2 := if w.props.onContentChange && noteIdTruthy w.props.noteId then
                 [Eff.contentCb w.st.value] else []
  let saveDeb1 := if noteIdTruthy w.props.noteId && !w.st.isLoading then
                    debounceTrigger 1000 now ⟨w.st.value, w.st.title, w.props.logoText⟩ w.saveDeb
                  else w.saveDeb
  let homeDeb1 := if !(noteIdTruthy w.props.noteId) && w.props.onContentChange then
                    debounceTrigger 500 now (w.st.value, w.st.title) w.homeDeb
                  else w.homeDeb
  { w with effs := w.effs ++ effs1 ++ effs2, saveDeb := saveDeb1, homeDeb := homeDeb1 }

/-- Fire the pending debounced save: the wrapped callback
`(content, title, logo) => saveNote(content, title, logo)` (line 76) runs
with the captured arguments. -/
def fireSave (w : EditorWorld) : EditorWorld :=
  match w.saveDeb with
  | none => w
  | some (_, a) =>
    let r := saveNoteStart w.props.noteId w.st a.content a.title a.logoText
    { w with st := r.1, effs := w.effs ++ r.2, saveDeb := none }

/-- Fire the pending debounced homepage notification (lines 79-83): the
wrapped callback re-checks that `onContentChange` is supplied. -/
def fireHome (w : EditorWorld) : EditorWorld :=
  match w.homeDeb with
  | none => w
  | some (_, a) =>
    { w with
        effs := w.effs ++ (if w.props.onContentChange then [Eff.homepageCb a.1 a.2] else []),
        homeDeb := none }

/-- Fire the debounced save if its deadline has passed. -/
def fireSaveIfDue (now : Nat) (w : EditorWorld) : EditorWorld :=
  match w.saveDeb with
  | some (t, _) => if t ≤ now then fireSave w else w
  | none => w

/-- Fire the debounced homepage notification if its deadline has passed. -/
def fireHomeIfDue (now : Nat) (w : EditorWorld) : EditorWorld :=
  match w.homeDeb with
  | some (t, _) => if t ≤ now then fireHome w else w
  | none => w

/-- Fire whichever debounce timers are due at time `now`.  The component
never cancels these timers (no cleanup is returned from the edit effect),
so they keep firing after unmount as well. -/
def fireDue (now : Nat) (w : EditorWorld) : EditorWorld :=
  fireHomeIfDue now (fireSaveIfDue now w)

/-- Does a keystroke change one of the edit effect's dependencies
`[value, title]`?  (React re-runs the effect only in that case; `logoText`
is a prop, constant during a session.) -/
def depsChanged (a : EditAction) (st : CState) : Bool :=
  !((applyEdit a st).value == st.value) || !((applyEdit a st).title == st.title)

/-- Session events: a keystroke, resolution of the load fetch, or unmount.
(Resolution of a save fetch only toggles `isSaving` via `saveNoteComplete`
and triggers no effect re-run; it is analysed at the function level.) -/
inductive Ev where
  | edit (a : EditAction)
  | loadDone (r : LoadResult)
  | unmount
deriving DecidableEq

/-- One event-loop turn at time `now`: due debounce timers fire first, then
the event is processed.  A keystroke can only happen while mounted; it
updates the state and, when a dependency changed, re-runs the edit effect.
A load resolution resumes `loadNote` (whether or not still mounted — the
fetch is not cancelled) and, when still mounted and `value` or `title`
changed, re-runs the edit effect.  Unmount runs the cleanup of the first
effect (line 18), clearing the liveness ref. -/
def step (now : Nat) (ev : Ev) (w : EditorWorld) : EditorWorld :=
  let w1 := fireDue now w
  match ev with
  | .edit a =>
    if w1.st.mounted then
      let st1 := applyEdit a w1.st
      if depsChanged a w1.st then runEditEffect now { w1 with st := st1 }
      else { w1 with st := st1 }
    else w1
  | .loadDone r =>
    if w1.inFlightLoad then
      let res := loadNoteComplete r w1.st
      let w2 := { w1 with st := res.1, inFlightLoad := false, effs := w1.effs ++ res.2 }
      if w2.st.mounted &&
         (!(res.1.value == w1.st.value) || !(res.1.title == w1.st.title)) then
        runEditEffect now w2
      else w2
    else w1
  | .unmount => { w1 with st := { w1.st with mounted := false } }

/-- Mounting the component at time 0: initial state, then the effects run
in declaration order — the unmount-flag effect (registers cleanup only),
the load effect, and the edit effect. -/
def mount (p : Props) : EditorWorld :=
  let st0 := initState p
  let lr := loadEffect p st0
  runEditEffect 0
    { props := p, st := lr.1, saveDeb := none, homeDeb := none,
      inFlightLoad := !lr.2.isEmpty, effs := lr.2 }

/-- A session: mount, then process the timed events in order. -/
def runSession (p : Props) (evs : List (Nat × Ev)) : EditorWorld :=
  evs.foldl (fun w te => step te.1 te.2 w) (mount p)

/-- A session consisting only of keystrokes. -/
def runEdits (p : Props) (edits : List (Nat × EditAction)) : EditorWorld :=
  runSession p (edits.map (fun te => (te.1, Ev.edit te.2)))

/-- Let enough time pass for every pending debounce timer to fire
(quiescence after the last trigger). -/
def flush (w : EditorWorld) : EditorWorld :=
  fireHome (fireSave w)

/-- Is an effect an HTTP GET request? -/
def isGet : Eff → Bool
  | .getReq _ => true
  | _ => false

/-- Is an effect an HTTP PUT request? -/
def isPut : Eff → Bool
  | .putReq _ _ => true
  | _ => false

/-- The GET requests among a list of effects. -/
def getReqs (l : List Eff) : List Eff := l.filter isGet

/-- The PUT requests among a list of effects. -/
def putReqs (l : List Eff) : List Eff := l.filter isPut

/-- The local state after a list of keystrokes, ignoring timing: the
"final values" of a burst. -/
def finalState (p : Props) (edits : List (Nat × EditAction)) : CState :=
  edits.foldl (fun st te => applyEdit te.2 st) (initState p)

/-- What the component returns (lines 107-163), by priority: the loading
placeholder, the disabled/expired notice, or the editor with title input,
content textarea and the saving indicator. -/
inductive RenderView where
  | loading
  | expired
  | editor (title : String) (value : String) (showSaving : Bool)
deriving DecidableEq

/-- The render function of the component (lines 107-163). -/
def render (p : Props) (st : CState) : RenderView :=
  if st.isLoading then .loading
  else if p.isDisabled then .expired
  else .editor st.title st.value st.isSaving

/-- Whether a rendered view contains the title input and content
textarea (only the editor branch does). -/
def renderHasInputs : RenderView → Bool
  | .editor _ _ _ => true
  | _ => false

/-- A load completion counts as a success exactly when `data.success` is
truthy and the `data.data` object is present (lines 40-43). -/
def isLoadSuccess : LoadResult → Bool
  | .response true (some _) => true
  | _ => false

/-! Shared helper lemmas. -/

theorem getReqs_append (a b : List Eff) : getReqs (a ++ b) = getReqs a ++ getReqs b := by
  simp [getReqs]

theorem putReqs_append (a b : List Eff) : putReqs (a ++ b) = putReqs a ++ putReqs b := by
  simp [putReqs]

theorem runEditEffect_props (now : Nat) (w : EditorWorld) :
    (runEditEffect now w).props = w.props := by
  simp [runEditEffect]

theorem runEditEffect_st (now : Nat) (w : EditorWorld) :
    (runEditEffect now w).st = w.st := by
  simp [runEditEffect]

theorem getReqs_runEditEffect (now : Nat) (w : EditorWorld) :
    getReqs (runEditEffect now w).effs = getReqs w.effs := by
  unfold runEditEffect
  split <;> split <;> simp [getReqs_append, getReqs, isGet]

theorem putReqs_runEditEffect (now : Nat) (w : EditorWorld) :
    putReqs (runEditEffect now w).effs = putReqs w.effs := by
  unfold runEditEffect
  split <;> split <;> simp [putReqs_append, putReqs, isPut]

theorem saveNoteStart_mounted (noteId : Option String) (st : CState) (c t l : String) :
    (saveNoteStart noteId st c t l).1.mounted = st.mounted := by
  unfold saveNoteStart
  split <;> try split
  all_goals simp

theorem saveNoteStart_value (noteId : Option String) (st : CState) (c t l : String) :
    (saveNoteStart noteId st c t l).1.value = st.value := by
  unfold saveNoteStart
  split <;> try split
  all_goals simp

theorem saveNoteStart_title (noteId : Option String) (st : CState) (c t l : String) :
    (saveNoteStart noteId st c t l).1.title = st.title := by
  unfold saveNoteStart
  split <;> try split
  all_goals simp

theorem saveNoteStart_isLoading (noteId : Option String) (st : CState) (c t l : String) :
    (saveNoteStart noteId st c t l).1.isLoading = st.isLoading := by
  unfold saveNoteStart
  split <;> try split
  all_goals simp

theorem getReqs_saveNoteStart (noteId : Option String) (st : CState) (c t l : String) :
    getReqs (saveNoteStart noteId st c t l).2 = [] := by
  unfold saveNoteStart
  split <;> simp [getReqs, isGet]

theorem getReqs_loadNoteComplete (r : LoadResult) (st : CState) :
    getReqs (loadNoteComplete r st).2 = [] := by
  unfold loadNoteComplete
  cases r with
  | fetchError => simp [getReqs, isGet]
  | response success data =>
    cases success <;> cases data <;> simp [getReqs, isGet]

theorem putReqs_loadNoteComplete (r : LoadResult) (st : CState) :
    putReqs (loadNoteComplete r st).2 = [] := by
  unfold loadNoteComplete
  cases r with
  | fetchError => simp [putReqs, isPut]
  | response success data =>
    cases success <;> cases data <;> simp [putReqs, isPut]

theorem getReqs_fireSave (w : EditorWorld) : getReqs (fireSave w).effs = getReqs w.effs := by
  unfold fireSave
  cases h : w.saveDeb with
  | none => rfl
  | some a => simp [getReqs_append, getReqs_saveNoteStart]

theorem getReqs_fireHome (w : EditorWorld) : getReqs (fireHome w).effs = getReqs w.effs := by
  unfold fireHome
  cases h : w.homeDeb with
  | none => rfl
  | some a => split <;> simp [getReqs_append, getReqs, isGet]

theorem getReqs_fireSaveIfDue (now : Nat) (w : EditorWorld) :
    getReqs (fireSaveIfDue now w).effs = getReqs w.effs := by
  unfold fireSaveIfDue
  split
  · split
    · exact getReqs_fireSave w
    · rfl
  · rfl

theorem getReqs_fireHomeIfDue (now : Nat) (w : EditorWorld) :
    getReqs (fireHomeIfDue now w).effs = getReqs w.effs := by
  unfold fireHomeIfDue
  split
  · split
    · exact getReqs_fireHome w
    · rfl
  · rfl

theorem getReqs_fireDue (now : Nat) (w : EditorWorld) :
    getReqs (fireDue now w).effs = getReqs w.effs := by
  unfold fireDue
  rw [getReqs_fireHomeIfDue, getReqs_fireSaveIfDue]

theorem getReqs_step (now : Nat) (ev : Ev) (w : EditorWorld) :
    getReqs (step now ev w).effs = getReqs w.effs := by
  cases ev with
  | edit a =>
    simp only [step]
    split
    · split <;> simp [getReqs_runEditEffect, getReqs_fireDue]
    · simp [getReqs_fireDue]
  | loadDone r =>
    simp only [step]
    split
    · split <;>
        simp [getReqs_runEditEffect, getReqs_append, getReqs_loadNoteComplete, getReqs_fireDue]
    · simp [getReqs_fireDue]
  | unmount =>
    simp only [step]
    simp [getReqs_fireDue]

theorem getReqs_foldSteps (evs : List (Nat × Ev)) (w : EditorWorld) :
    getReqs (evs.foldl (fun acc te => step te.1 te.2 acc) w).effs = getReqs w.effs := by
  induction evs generalizing w with
  | nil => rfl
  | cons e rest ih => simp [List.foldl_cons, ih, getReqs_step]

theorem getReqs_flush (w : EditorWorld) : getReqs (flush w).effs = getReqs w.effs := by
  simp [flush, getReqs_fireHome, getReqs_fireSave]

theorem putReqs_fireHome (w : EditorWorld) : putReqs (fireHome w).effs = putReqs w.effs := by
  unfold fireHome
  cases h : w.homeDeb with
  | none => rfl
  | some a => split <;> simp [putReqs_append, putReqs, isPut]

theorem CState_set_isLoading_self (st : CState) (h : st.isLoading = true) :
    { st with isLoading := true } = st := by
  cases st
  simp_all

theorem mount_props (p : Props) : (mount p).props = p := by
  simp only [mount, runEditEffect_props]

theorem mount_st (p : Props) : (mount p).st = initState p := by
  simp only [mount]
  rw [runEditEffect_st]
  show (loadEffect p (initState p)).1 = initState p
  unfold loadEffect
  split
  · rfl
  · rename_i h
    simp only [Bool.or_eq_true, Bool.not_eq_true', not_or, Bool.not_eq_false] at h
    refine CState_set_isLoading_self _ ?_
    simp [initState, h.1, Option.isNone_iff_eq_none]
    cases hd : p.initialData with
    | none => rfl
    | some d => rw [hd] at h; simp at h

theorem mount_putReqs (p : Props) : putReqs (mount p).effs = [] := by
  simp only [mount]
  rw [putReqs_runEditEffect]
  show putReqs (loadEffect p (initState p)).2 = []
  unfold loadEffect
  split <;> simp [putReqs, isPut]

theorem mount_mounted (p : Props) : (mount p).st.mounted = true := by
  rw [mount_st]
  rfl

theorem runEditEffect_saveDeb (now : Nat) (w : EditorWorld) :
    (runEditEffect now w).saveDeb =
      if noteIdTruthy w.props.noteId && !w.st.isLoading then
        some (now + 1000, ⟨w.st.value, w.st.title, w.props.logoText⟩)
      else w.saveDeb := by
  simp [runEditEffect, debounceTrigger]

theorem runEditEffect_homeDeb (now : Nat) (w : EditorWorld) :
    (runEditEffect now w).homeDeb =
      if !(noteIdTruthy w.props.noteId) && w.props.onContentChange then
        some (now + 500, (w.st.value, w.st.title))
      else w.homeDeb := by
  simp [runEditEffect, debounceTrigger]

theorem initState_isLoading_initialData (p : Props) (d : NoteData)
    (hinit : p.initialData = some d) : (initState p).isLoading = false := by
  simp [initState, hinit]

theorem loadEffect_fst (p : Props) : (loadEffect p (initState p)).1 = initState p := by
  unfold loadEffect
  split
  · rfl
  · rename_i h
    simp only [Bool.or_eq_true, Bool.not_eq_true', not_or, Bool.not_eq_false] at h
    refine CState_set_isLoading_self _ ?_
    simp [initState, h.1, Option.isNone_iff_eq_none]
    cases hd : p.initialData with
    | none => rfl
    | some d => rw [hd] at h; simp at h

theorem mount_saveDeb_initialData (p : Props) (d : NoteData)
    (hid : noteIdTruthy p.noteId = true) (hinit : p.initialData = some d) :
    (mount p).saveDeb =
      some (1000, ⟨(initState p).value, (initState p).title, p.logoText⟩) := by
  simp only [mount]
  rw [runEditEffect_saveDeb]
  dsimp only
  rw [loadEffect_fst, initState_isLoading_initialData p d hinit]
  simp [hid]

theorem mount_homeDeb_noteId (p : Props) (hid : noteIdTruthy p.noteId = true) :
    (mount p).homeDeb = none := by
  simp only [mount]
  rw [runEditEffect_homeDeb]
  simp [hid]

theorem loadEffect_snd_initialData (p : Props) (d : NoteData) (st : CState)
    (hinit : p.initialData = some d) : (loadEffect p st).2 = [] := by
  simp [loadEffect, hinit]

theorem mount_getReqs_initialData (p : Props) (d : NoteData)
    (hinit : p.initialData = some d) : getReqs (mount p).effs = [] := by
  simp only [mount]
  rw [getReqs_runEditEffect]
  show getReqs (loadEffect p (initState p)).2 = []
  rw [loadEffect_snd_initialData p d _ hinit]
  rfl

theorem mount_getReqs_noInit (p : Props)
    (hid : noteIdTruthy p.noteId = true) (hinit : p.initialData = none) :
    getReqs (mount p).effs = [Eff.getReq (noteUrl p.noteId)] := by
  simp only [mount]
  rw [getReqs_runEditEffect]
  dsimp only
  simp [loadEffect, hid, hinit, getReqs, isGet]

theorem flush_mount_putReqs_initialData (p : Props) (d : NoteData)
    (hid : noteIdTruthy p.noteId = true) (hinit : p.initialData = some d) :
    putReqs (flush (mount p)).effs =
      [Eff.putReq (noteUrl p.noteId)
        ⟨(initState p).value, (initState p).title, p.logoText⟩] := by
  unfold flush
  rw [putReqs_fireHome]
  unfold fireSave
  rw [mount_saveDeb_initialData p d hid hinit]
  dsimp only
  rw [putReqs_append, mount_putReqs, mount_props, mount_st]
  simp [saveNoteStart, hid, putReqs, isPut]

/-! Concrete configurations used by counterexamples and witnesses. -/

/-- A backend-linked configuration with initial data and both callbacks. -/
def pInit : Props :=
  ⟨some ("n1"), some ⟨some ("T0"), some ("C0")⟩, ("NoteSpace"), true, true, false⟩

/-- A backend-linked configuration without initial data. -/
def pNoInit : Props := ⟨some ("n1"), none, ("NoteSpace"), false, false, false⟩

/-- A homepage configuration: no note id, content callback supplied. -/
def pHome : Props := ⟨none, none, ("NoteSpace"), true, false, false⟩

/-- `pNoInit` with the editor disabled. -/
def pDisabledNoInit : Props := ⟨some ("n1"), none, ("NoteSpace"), false, false, true⟩

/-- `pInit` with the editor disabled and no callbacks. -/
def pDisabledInit : Props :=
  ⟨some ("n1"), some ⟨some ("T0"), some ("C0")⟩, ("NoteSpace"), false, false, true⟩

/-- A session that unmounts at t=1 and whose load fetch resolves
successfully at t=2, after the unmount. -/
def unmountThenLoad : EditorWorld :=
  runSession pNoInit
    [(1, Ev.unmount), (2, Ev.loadDone (.response true (some ⟨some ("T"), some ("C")⟩)))]

/-! Claims. -/

/-- C8: for every call to `saveNote` with `noteId` unset (falsy), the
function returns without issuing any network request and without mutating
any state; in particular `isSaving` stays unchanged. -/
theorem saveNote_noop_without_noteId (noteId : Option String) (st : CState)
    (c t l : String) (h : noteIdTruthy noteId = false) :
    saveNoteStart noteId st c t l = (st, []) := by
  simp [saveNoteStart, h]

/-- Witness for `saveNote_noop_without_noteId`. -/
theorem saveNote_noop_without_noteId_witness :
    noteIdTruthy none = false ∧
    saveNoteStart none ⟨("v"), ("t"), false, false, true⟩ ("c") ("t") ("l") =
      (⟨("v"), ("t"), false, false, true⟩, []) :=
  ⟨by decide,
   saveNote_noop_without_noteId none ⟨("v"), ("t"), false, false, true⟩ ("c") ("t") ("l")
     (by decide)⟩

/-- C9: for every load completion that is not a success (the fetch threw,
the response failed to parse, the `success` flag is absent or false — and
also when `success` is truthy but the `data` object is missing), the
`title` and `content` state are left exactly as they were at completion
time; only `isLoading` is set to false. -/
theorem load_failure_preserves_state (r : LoadResult) (st : CState)
    (h : isLoadSuccess r = false) :
    (loadNoteComplete r st).1 = { st with isLoading := false } := by
  cases r with
  | fetchError => rfl
  | response success data =>
    cases success with
    | false => rfl
    | true =>
      cases data with
      | none => rfl
      | some d => simp [isLoadSuccess] at h

/-- Witness for `load_failure_preserves_state`. -/
theorem load_failure_preserves_state_witness :
    isLoadSuccess (.response false (some ⟨some ("T"), some ("C")⟩)) = false ∧
    (loadNoteComplete (.response false (some ⟨some ("T"), some ("C")⟩))
        ⟨("v"), ("t"), true, false, true⟩).1 =
      ⟨("v"), ("t"), false, false, true⟩ :=
  ⟨by decide,
   load_failure_preserves_state (.response false (some ⟨some ("T"), some ("C")⟩))
     ⟨("v"), ("t"), true, false, true⟩ (by decide)⟩

/-- C5: every executed save issues a PUT to `/api/note/{noteId}` with JSON
body exactly `{content, title, logoText}`; `isSaving` is set true before
the call and false after completion, on both the success and the failure
path, and each of these flag mutations happens only while the component is
still mounted; a failure is only logged — the completion issues no further
request (no retry) and sets no error state. -/
theorem save_flow (noteId : Option String) (st st2 : CState)
    (c t l : String) (ok : Bool) (hid : noteIdTruthy noteId = true) :
    (saveNoteStart noteId st c t l).2 =
      [Eff.putReq (noteUrl noteId) ⟨c, t, l⟩] ∧
    (st.mounted = true → (saveNoteStart noteId st c t l).1 = { st with isSaving := true }) ∧
    (st.mounted = false → (saveNoteStart noteId st c t l).1 = st) ∧
    (st2.mounted = true → (saveNoteComplete ok st2).1 = { st2 with isSaving := false }) ∧
    (st2.mounted = false → (saveNoteComplete ok st2).1 = st2) ∧
    (ok = true → (saveNoteComplete ok st2).2 = []) ∧
    (ok = false → (saveNoteComplete ok st2).2 = [Eff.logError ("Failed to save:")]) ∧
    putReqs (saveNoteComplete ok st2).2 = [] ∧
    getReqs (saveNoteComplete ok st2).2 = [] := by
  refine ⟨by simp [saveNoteStart, hid],
          fun h => by simp [saveNoteStart, hid, h],
          fun h => by simp [saveNoteStart, hid, h],
          fun h => by simp [saveNoteComplete, h],
          fun h => by simp [saveNoteComplete, h],
          fun h => by simp [saveNoteComplete, h],
          fun h => by simp [saveNoteComplete, h],
          by cases ok <;> simp [saveNoteComplete, putReqs, isPut],
          by cases ok <;> simp [saveNoteComplete, getReqs, isGet]⟩

/-- Witness for `save_flow`. -/
theorem save_flow_witness :
    noteIdTruthy (some ("n1")) = true ∧
    (saveNoteStart (some ("n1")) ⟨("v"), ("t"), false, false, true⟩ ("c") ("t") ("l")).2 =
      [Eff.putReq ("/api/note/n1") ⟨("c"), ("t"), ("l")⟩] :=
  ⟨by decide,
   (save_flow (some ("n1")) ⟨("v"), ("t"), false, false, true⟩
      ⟨("v"), ("t"), false, false, false⟩ ("c") ("t") ("l") false (by decide)).1⟩

/-- C3 is violated by the code: the load completion never consults the
liveness flag.  In this concrete session the component mounts with
`noteId = "n1"` and no `initialData`, is unmounted at t=1, and the load
fetch resolves successfully at t=2: the completion then overwrites
`value` (from "" to "C") and clears `isLoading` although the component is
already unmounted. -/
theorem load_completion_mutates_after_unmount :
    unmountThenLoad.st.mounted = false ∧
    (mount pNoInit).st.value = ("") ∧
    unmountThenLoad.st.value = ("C") ∧
    (mount pNoInit).st.isLoading = true ∧
    unmountThenLoad.st.isLoading = false := by
  decide

/-- C3 (amended): pending completions never throw (every failure is caught
and handled), and the save completion does check the liveness flag: after
unmount it leaves the whole state untouched, as does the save start.  The
load completion, however, does not check the flag: even after unmount it
unconditionally sets `isLoading := false` and, on success, overwrites
`value` and `title`; the code relies on the UI runtime to tolerate these
post-unmount writes. -/
theorem completion_liveness_discipline (st : CState) (ok : Bool) (r : LoadResult)
    (noteId : Option String) (c t l : String) (h : st.mounted = false) :
    (saveNoteComplete ok st).1 = st ∧
    (saveNoteStart noteId st c t l).1 = st ∧
    (loadNoteComplete r st).1.isLoading = false ∧
    (loadNoteComplete r st).1.isSaving = st.isSaving ∧
    (loadNoteComplete r st).1.mounted = false := by
  refine ⟨by simp [saveNoteComplete, h],
          by unfold saveNoteStart; split <;> simp [h],
          ?_, ?_, ?_⟩
  all_goals
    cases r with
    | fetchError => simp [loadNoteComplete, h]
    | response success data =>
      cases success <;> cases data <;> simp [loadNoteComplete, h]

/-- Witness for `completion_liveness_discipline`. -/
theorem completion_liveness_discipline_witness :
    (⟨("v"), ("t"), true, true, false⟩ : CState).mounted = false ∧
    (saveNoteComplete true ⟨("v"), ("t"), true, true, false⟩).1 =
      ⟨("v"), ("t"), true, true, false⟩ :=
  ⟨by decide,
   (completion_liveness_discipline ⟨("v"), ("t"), true, true, false⟩ true
      (.response true (some ⟨some ("T"), some ("C")⟩)) (some ("n1")) ("c") ("t") ("l")
      (by decide)).1⟩

/-- C2 is violated by the code: `isDisabled` is only consulted in the
render path.  With `isDisabled = true`, `noteId = "n1"` and no
`initialData`, mounting still issues the load GET request; and with
`initialData` supplied, the debounced save scheduled at mount still fires
a PUT request. -/
theorem disabled_still_issues_requests :
    pDisabledNoInit.isDisabled = true ∧
    Eff.getReq ("/api/note/n1") ∈ (mount pDisabledNoInit).effs ∧
    pDisabledInit.isDisabled = true ∧
    putReqs (flush (mount pDisabledInit)).effs =
      [Eff.putReq ("/api/note/n1") ⟨("C0"), ("T0"), ("NoteSpace")⟩] := by
  decide

/-- C2 (amended): whenever `isDisabled` is true the component renders no
title input and no content textarea (the disabled notice or the loading
placeholder is shown instead); however `isDisabled` does not gate network
activity: with a truthy `noteId` and no `initialData` the mount still
issues the load GET request, and with `initialData` supplied the mount
still schedules the debounced save, whose firing issues a PUT request. -/
theorem disabled_gates_render_only (p : Props) (st : CState) (d : NoteData)
    (h : p.isDisabled = true) :
    renderHasInputs (render p st) = false ∧
    (noteIdTruthy p.noteId = true → p.initialData = none →
      getReqs (mount p).effs = [Eff.getReq (noteUrl p.noteId)]) ∧
    (noteIdTruthy p.noteId = true → p.initialData = some d →
      putReqs (flush (mount p)).effs =
        [Eff.putReq (noteUrl p.noteId)
          ⟨(initState p).value, (initState p).title, p.logoText⟩]) := by
  refine ⟨?_, fun hid hinit => mount_getReqs_noInit p hid hinit,
          fun hid hinit => flush_mount_putReqs_initialData p d hid hinit⟩
  unfold render
  split
  · rfl
  · simp [h, renderHasInputs]

/-- Witness for `disabled_gates_render_only`. -/
theorem disabled_gates_render_only_witness :
    pDisabledNoInit.isDisabled = true ∧
    renderHasInputs (render pDisabledNoInit ⟨("v"), ("t"), false, false, true⟩) = false :=
  ⟨by decide,
   (disabled_gates_render_only pDisabledNoInit ⟨("v"), ("t"), false, false, true⟩
      ⟨some ("T0"), some ("C0")⟩ (by decide)).1⟩

/-- C10: when `noteId` is set and `isLoading` is false at mount (here
because `initialData` was supplied), the edit-handling effect runs once at
mount with the initial values, so a debounced save carrying the unedited
initial content, title and logoText is scheduled (deadline: mount time +
1000ms) even though no user edit has occurred; left to fire, it issues a
PUT with the unedited initial values. -/
theorem mount_schedules_unedited_save (p : Props) (d : NoteData)
    (hid : noteIdTruthy p.noteId = true) (hinit : p.initialData = some d) :
    (mount p).st.isLoading = false ∧
    (mount p).saveDeb =
      some (1000, ⟨(initState p).value, (initState p).title, p.logoText⟩) ∧
    putReqs (flush (mount p)).effs =
      [Eff.putReq (noteUrl p.noteId)
        ⟨(initState p).value, (initState p).title, p.logoText⟩] := by
  refine ⟨?_, mount_saveDeb_initialData p d hid hinit,
          flush_mount_putReqs_initialData p d hid hinit⟩
  rw [mount_st]
  exact initState_isLoading_initialData p d hinit

theorem fireSave_props (w : EditorWorld) : (fireSave w).props = w.props := by
  unfold fireSave
  split
  · rfl
  · rfl

theorem fireHome_props (w : EditorWorld) : (fireHome w).props = w.props := by
  unfold fireHome
  split
  · rfl
  · rfl

theorem fireSave_mounted (w : EditorWorld) : (fireSave w).st.mounted = w.st.mounted := by
  unfold fireSave
  split
  · rfl
  · dsimp only
    exact saveNoteStart_mounted _ _ _ _ _

theorem fireHome_st (w : EditorWorld) : (fireHome w).st = w.st := by
  unfold fireHome
  split
  · rfl
  · rfl

theorem fireSaveIfDue_props (now : Nat) (w : EditorWorld) :
    (fireSaveIfDue now w).props = w.props := by
  unfold fireSaveIfDue
  split
  · split
    · exact fireSave_props w
    · rfl
  · rfl

theorem fireHomeIfDue_props (now : Nat) (w : EditorWorld) :
    (fireHomeIfDue now w).props = w.props := by
  unfold fireHomeIfDue
  split
  · split
    · exact fireHome_props w
    · rfl
  · rfl

theorem fireDue_props (now : Nat) (w : EditorWorld) :
    (fireDue now w).props = w.props := by
  unfold fireDue
  rw [fireHomeIfDue_props, fireSaveIfDue_props]

theorem fireSaveIfDue_mounted (now : Nat) (w : EditorWorld) :
    (fireSaveIfDue now w).st.mounted = w.st.mounted := by
  unfold fireSaveIfDue
  split
  · split
    · exact fireSave_mounted w
    · rfl
  · rfl

theorem fireHomeIfDue_st (now : Nat) (w : EditorWorld) :
    (fireHomeIfDue now w).st = w.st := by
  unfold fireHomeIfDue
  split
  · split
    · exact fireHome_st w
    · rfl
  · rfl

theorem fireDue_mounted (now : Nat) (w : EditorWorld) :
    (fireDue now w).st.mounted = w.st.mounted := by
  unfold fireDue
  rw [fireHomeIfDue_st, fireSaveIfDue_mounted]

theorem applyEdit_isLoading (a : EditAction) (st : CState) :
    (applyEdit a st).isLoading = st.isLoading := by
  cases a <;> rfl

theorem applyEdit_mounted (a : EditAction) (st : CState) :
    (applyEdit a st).mounted = st.mounted := by
  cases a <;> rfl

theorem depsChanged_false (a : EditAction) (st : CState)
    (h : depsChanged a st = false) :
    (applyEdit a st).value = st.value ∧ (applyEdit a st).title = st.title := by
  simpa [depsChanged] using h

theorem burst_step (p : Props) (w : EditorWorld) (t : Nat) (a : EditAction) (dl : Nat)
    (hid : noteIdTruthy p.noteId = true)
    (hprops : w.props = p) (hload : w.st.isLoading = false)
    (hmount : w.st.mounted = true) (hhome : w.homeDeb = none)
    (hdl : 1000 ≤ dl) (ht : t < 1000)
    (hsave : w.saveDeb = some (dl, ⟨w.st.value, w.st.title, p.logoText⟩)) :
    (step t (.edit a) w).props = p ∧
    (step t (.edit a) w).st = applyEdit a w.st ∧
    (step t (.edit a) w).homeDeb = none ∧
    putReqs (step t (.edit a) w).effs = putReqs w.effs ∧
    ∃ dl1, 1000 ≤ dl1 ∧
      (step t (.edit a) w).saveDeb =
        some (dl1, ⟨(applyEdit a w.st).value, (applyEdit a w.st).title, p.logoText⟩) := by
  have hnotdue : ¬ dl ≤ t := by omega
  have hs : fireSaveIfDue t w = w := by
    unfold fireSaveIfDue
    rw [hsave]
    simp [hnotdue]
  have hh : fireHomeIfDue t w = w := by
    unfold fireHomeIfDue
    rw [hhome]
  have hfd : fireDue t w = w := by
    unfold fireDue
    rw [hs, hh]
  cases hch : depsChanged a w.st with
  | true =>
    simp only [step, hfd, hmount, hch, if_true]
    refine ⟨?_, ?_, ?_, ?_, t + 1000, Nat.le_add_left 1000 t, ?_⟩
    · rw [runEditEffect_props]
      exact hprops
    · rw [runEditEffect_st]
    · rw [runEditEffect_homeDeb]
      dsimp only
      rw [hprops, hid]
      simp [hhome]
    · rw [putReqs_runEditEffect]
    · rw [runEditEffect_saveDeb]
      dsimp only
      rw [hprops, hid, applyEdit_isLoading, hload]
      simp
  | false =>
    obtain ⟨hv, hti⟩ := depsChanged_false a w.st hch
    simp only [step, hfd, hmount, hch, if_true, Bool.false_eq_true, if_false]
    refine ⟨hprops, by trivial, hhome, by trivial, dl, hdl, ?_⟩
    dsimp only
    rw [hv, hti]
    exact hsave

theorem burst_fold (p : Props) (hid : noteIdTruthy p.noteId = true)
    (edits : List (Nat × EditAction)) :
    ∀ (w : EditorWorld) (dl : Nat),
      (∀ e ∈ edits, e.1 < 1000) →
      w.props = p → w.st.isLoading = false → w.st.mounted = true →
      w.homeDeb = none → 1000 ≤ dl →
      w.saveDeb = some (dl, ⟨w.st.value, w.st.title, p.logoText⟩) →
      ((edits.foldl (fun acc te => step te.1 (.edit te.2) acc) w).props = p ∧
       (edits.foldl (fun acc te => step te.1 (.edit te.2) acc) w).st =
         edits.foldl (fun st te => applyEdit te.2 st) w.st ∧
       (edits.foldl (fun acc te => step te.1 (.edit te.2) acc) w).homeDeb = none ∧
       putReqs (edits.foldl (fun acc te => step te.1 (.edit te.2) acc) w).effs =
         putReqs w.effs ∧
       ∃ dl1, 1000 ≤ dl1 ∧
         (edits.foldl (fun acc te => step te.1 (.edit te.2) acc) w).saveDeb =
           some (dl1,
             ⟨(edits.foldl (fun st te => applyEdit te.2 st) w.st).value,
              (edits.foldl (fun st te => applyEdit te.2 st) w.st).title,
              p.logoText⟩)) := by
  induction edits with
  | nil =>
    intro w dl _ hprops hload hmount hhome hdl hsave
    exact ⟨hprops, rfl, hhome, rfl, dl, hdl, by simpa using hsave⟩
  | cons e rest ih =>
    intro w dl hts hprops hload hmount hhome hdl hsave
    obtain ⟨h1, h2, h3, h4, dl1, hdl1, h5⟩ :=
      burst_step p w e.1 e.2 dl hid hprops hload hmount hhome hdl
        (hts e (List.mem_cons_self e rest)) hsave
    have hload1 : (step e.1 (.edit e.2) w).st.isLoading = false := by
      rw [h2, applyEdit_isLoading]
      exact hload
    have hmount1 : (step e.1 (.edit e.2) w).st.mounted = true := by
      rw [h2, applyEdit_mounted]
      exact hmount
    have hsave1 : (step e.1 (.edit e.2) w).saveDeb =
        some (dl1, ⟨(step e.1 (.edit e.2) w).st.value,
                    (step e.1 (.edit e.2) w).st.title, p.logoText⟩) := by
      rw [h2]
      exact h5
    obtain ⟨g1, g2, g3, g4, dl2, hdl2, g5⟩ :=
      ih (step e.1 (.edit e.2) w) dl1
        (fun e1 he1 => hts e1 (List.mem_cons_of_mem e he1))
        h1 hload1 hmount1 h3 hdl1 hsave1
    rw [List.foldl_cons, List.foldl_cons]
    refine ⟨g1, ?_, g3, ?_, dl2, hdl2, ?_⟩
    · rw [g2, h2]
    · rw [g4, h4]
    · rw [g5, h2]

/-- C1: for every burst of N edits to content or title whose timestamps
all lie inside the 1000ms debounce window opened at mount (hence every
inter-edit gap is below the window), with a truthy `noteId` and the
initial load already complete (`initialData` supplied), exactly one PUT
write request is issued in the whole session once the debounce timer
fires, and its body carries the final content, title and logoText values
current at the last schedule time (trailing-edge coalescing). -/
theorem debounced_save_coalesces (p : Props) (d : NoteData)
    (edits : List (Nat × EditAction))
    (hid : noteIdTruthy p.noteId = true)
    (hinit : p.initialData = some d)
    (hburst : ∀ e ∈ edits, e.1 < 1000) :
    putReqs (flush (runEdits p edits)).effs =
      [Eff.putReq (noteUrl p.noteId)
        ⟨(finalState p edits).value, (finalState p edits).title, p.logoText⟩] := by
  have hsave0 : (mount p).saveDeb =
      some (1000, ⟨(mount p).st.value, (mount p).st.title, p.logoText⟩) := by
    rw [mount_saveDeb_initialData p d hid hinit, mount_st]
  have hload0 : (mount p).st.isLoading = false := by
    rw [mount_st]
    exact initState_isLoading_initialData p d hinit
  have hrun : runEdits p edits =
      edits.foldl (fun acc te => step te.1 (.edit te.2) acc) (mount p) := by
    simp only [runEdits, runSession, List.foldl_map]
  obtain ⟨h1, h2, h3, h4, dl1, hdl1, h5⟩ :=
    burst_fold p hid edits (mount p) 1000 hburst (mount_props p) hload0
      (mount_mounted p) (mount_homeDeb_noteId p hid) (le_refl 1000) hsave0
  rw [hrun]
  unfold flush
  rw [putReqs_fireHome]
  unfold fireSave
  rw [h5]
  dsimp only
  rw [putReqs_append, h4, mount_putReqs, h1]
  simp [saveNoteStart, hid, putReqs, isPut, finalState, mount_st]

/-- Witness for `debounced_save_coalesces`. -/
theorem debounced_save_coalesces_witness :
    noteIdTruthy pInit.noteId = true ∧
    (∀ e ∈ [((5 : Nat), EditAction.setValue ("a")), ((7 : Nat), EditAction.setTitle ("t")),
            ((900 : Nat), EditAction.setValue ("ab"))], e.1 < 1000) ∧
    putReqs (flush (runEdits pInit
        [(5, .setValue ("a")), (7, .setTitle ("t")), (900, .setValue ("ab"))])).effs =
      [Eff.putReq (noteUrl pInit.noteId)
        ⟨(finalState pInit
            [(5, .setValue ("a")), (7, .setTitle ("t")), (900, .setValue ("ab"))]).value,
         (finalState pInit
            [(5, .setValue ("a")), (7, .setTitle ("t")), (900, .setValue ("ab"))]).title,
         pInit.logoText⟩] :=
  ⟨by decide, by decide,
   debounced_save_coalesces pInit ⟨some ("T0"), some ("C0")⟩
     [(5, .setValue ("a")), (7, .setTitle ("t")), (900, .setValue ("ab"))]
     (by decide) (by decide) (by decide)⟩

/-- C4: for every construction with a truthy `noteId` and no
`initialData`, the view starts with `isLoading = true`, and mounting
issues exactly one GET load request for `/api/note/{noteId}` — no session
continuation (keystrokes, load resolution, unmount, debounce firings)
ever issues another GET; on success the completion sets `title` and
`content` from the response's `data.title`/`data.content`, each
defaulting to the empty string when absent, and `isLoading` is cleared in
every outcome (success, failure, missing success flag). -/
theorem load_flow (p : Props) (evs : List (Nat × Ev)) (st : CState)
    (d : NoteData) (r : LoadResult)
    (hid : noteIdTruthy p.noteId = true) (hinit : p.initialData = none) :
    (initState p).isLoading = true ∧
    getReqs (mount p).effs = [Eff.getReq (noteUrl p.noteId)] ∧
    getReqs (flush (runSession p evs)).effs = [Eff.getReq (noteUrl p.noteId)] ∧
    loadNoteComplete (.response true (some d)) st =
      ({ st with value := d.content.getD (""), title := d.title.getD (""),
                 isLoading := false }, []) ∧
    (loadNoteComplete r st).1.isLoading = false := by
  refine ⟨?_, mount_getReqs_noInit p hid hinit, ?_, rfl, ?_⟩
  · simp [initState, hinit, hid]
  · rw [getReqs_flush]
    simp only [runSession]
    rw [getReqs_foldSteps]
    exact mount_getReqs_noInit p hid hinit
  · cases r with
    | fetchError => rfl
    | response success data => cases success <;> cases data <;> rfl

/-- Witness for `load_flow`. -/
theorem load_flow_witness :
    noteIdTruthy pNoInit.noteId = true ∧ pNoInit.initialData = none ∧
    getReqs (mount pNoInit).effs = [Eff.getReq (noteUrl pNoInit.noteId)] :=
  ⟨by decide, by decide,
   (load_flow pNoInit [(1, Ev.edit (.setValue ("x")))]
      ⟨("v"), ("t"), true, false, true⟩ ⟨some ("T"), some ("C")⟩ .fetchError
      (by decide) (by decide)).2.1⟩

/-- C7: on every edit to title or content (a keystroke that changes one of
the effect dependencies), `onTitleChange` is invoked immediately — in the
same event-loop turn, not debounced — with the new title whenever it is
provided, and `onContentChange` is invoked immediately with the new
content whenever it is provided and a truthy `noteId` exists; these two
notifications are the only effects the turn emits — the persistence write
is merely (re)scheduled, so the calls are independent of the debounce
timing. -/
theorem immediate_change_callbacks (now : Nat) (a : EditAction) (w : EditorWorld)
    (hm : w.st.mounted = true)
    (hT : w.props.onTitleChange = true)
    (hC : w.props.onContentChange = true)
    (hid : noteIdTruthy w.props.noteId = true)
    (hch : depsChanged a (fireDue now w).st = true) :
    (step now (.edit a) w).effs =
      (fireDue now w).effs ++
        [Eff.titleCb (applyEdit a (fireDue now w).st).title,
         Eff.contentCb (applyEdit a (fireDue now w).st).value] := by
  have hm1 : (fireDue now w).st.mounted = true := by rw [fireDue_mounted]; exact hm
  simp only [step, hm1, hch, if_true]
  simp [runEditEffect, fireDue_props, hT, hC, hid]

/-- Witness for `immediate_change_callbacks`. -/
theorem immediate_change_callbacks_witness :
    (mount pInit).st.mounted = true ∧
    depsChanged (.setValue ("x")) (fireDue 3 (mount pInit)).st = true ∧
    (step 3 (.edit (.setValue ("x"))) (mount pInit)).effs =
      (fireDue 3 (mount pInit)).effs ++
        [Eff.titleCb (applyEdit (.setValue ("x")) (fireDue 3 (mount pInit)).st).title,
         Eff.contentCb (applyEdit (.setValue ("x")) (fireDue 3 (mount pInit)).st).value] :=
  ⟨by decide, by decide,
   immediate_change_callbacks 3 (.setValue ("x")) (mount pInit)
     (by decide) (by decide) (by decide) (by decide) (by decide)⟩

theorem fireSave_none (w : EditorWorld) (h : w.saveDeb = none) : fireSave w = w := by
  unfold fireSave
  rw [h]

theorem fireHome_none (w : EditorWorld) (h : w.homeDeb = none) : fireHome w = w := by
  unfold fireHome
  rw [h]

theorem mount_saveDeb_noId (p : Props) (hid : noteIdTruthy p.noteId = false) :
    (mount p).saveDeb = none := by
  simp only [mount]
  rw [runEditEffect_saveDeb]
  dsimp only
  rw [hid]
  simp

theorem mount_homeDeb_home (p : Props) (hid : noteIdTruthy p.noteId = false)
    (hcb : p.onContentChange = true) :
    (mount p).homeDeb = some (500, ((initState p).value, (initState p).title)) := by
  simp only [mount]
  rw [runEditEffect_homeDeb]
  dsimp only
  rw [hid, hcb, loadEffect_fst]
  simp

theorem mount_getReqs_noId (p : Props) (hid : noteIdTruthy p.noteId = false) :
    getReqs (mount p).effs = [] := by
  simp only [mount]
  rw [getReqs_runEditEffect]
  dsimp only
  simp [loadEffect, hid, getReqs]

theorem home_fireDue (p : Props) (w : EditorWorld) (t : Nat)
    (hcb : p.onContentChange = true) (hprops : w.props = p)
    (hsave : w.saveDeb = none)
    (hput : putReqs w.effs = []) (hget : getReqs w.effs = [])
    (hargs : ∀ dl args, w.homeDeb = some (dl, args) → args = (w.st.value, w.st.title))
    (hmem : w.homeDeb = none → Eff.homepageCb w.st.value w.st.title ∈ w.effs) :
    (fireDue t w).props = p ∧
    (fireDue t w).st = w.st ∧
    (fireDue t w).saveDeb = none ∧
    putReqs (fireDue t w).effs = [] ∧
    getReqs (fireDue t w).effs = [] ∧
    (∀ dl args, (fireDue t w).homeDeb = some (dl, args) → args = (w.st.value, w.st.title)) ∧
    ((fireDue t w).homeDeb = none →
      Eff.homepageCb w.st.value w.st.title ∈ (fireDue t w).effs) := by
  have hs : fireSaveIfDue t w = w := by
    unfold fireSaveIfDue
    rw [hsave]
  have hfd : fireDue t w = fireHomeIfDue t w := by
    unfold fireDue
    rw [hs]
  rw [hfd]
  cases hh : w.homeDeb with
  | none =>
    have hnoop : fireHomeIfDue t w = w := by
      unfold fireHomeIfDue
      rw [hh]
    rw [hnoop]
    exact ⟨hprops, rfl, hsave, hput, hget,
           fun dl args h => hargs dl args h, fun _ => hmem hh⟩
  | some pr =>
    obtain ⟨dl0, args0⟩ := pr
    have hargs0 : args0 = (w.st.value, w.st.title) := hargs dl0 args0 hh
    unfold fireHomeIfDue
    rw [hh]
    dsimp only
    split
    · unfold fireHome
      rw [hh]
      dsimp only
      rw [hprops, hcb]
      simp only [if_true]
      refine ⟨by trivial, by trivial, hsave, ?_, ?_, ?_, ?_⟩
      · rw [putReqs_append, hput]
        simp [putReqs, isPut]
      · rw [getReqs_append, hget]
        simp [getReqs, isGet]
      · intro dl args h
        simp at h
      · intro _
        rw [hargs0]
        exact List.mem_append_right _ (by simp)
    · exact ⟨hprops, rfl, hsave, hput, hget,
             fun dl args h => hargs dl args h,
             fun h => by rw [hh] at h; cases h⟩

theorem home_step (p : Props) (w : EditorWorld) (t : Nat) (a : EditAction)
    (hid : noteIdTruthy p.noteId = false) (hcb : p.onContentChange = true)
    (hprops : w.props = p) (hmount : w.st.mounted = true)
    (hsave : w.saveDeb = none)
    (hput : putReqs w.effs = []) (hget : getReqs w.effs = [])
    (hargs : ∀ dl args, w.homeDeb = some (dl, args) → args = (w.st.value, w.st.title))
    (hmem : w.homeDeb = none → Eff.homepageCb w.st.value w.st.title ∈ w.effs) :
    (step t (.edit a) w).props = p ∧
    (step t (.edit a) w).st = applyEdit a w.st ∧
    (step t (.edit a) w).saveDeb = none ∧
    putReqs (step t (.edit a) w).effs = [] ∧
    getReqs (step t (.edit a) w).effs = [] ∧
    (∀ dl args, (step t (.edit a) w).homeDeb = some (dl, args) →
      args = ((step t (.edit a) w).st.value, (step t (.edit a) w).st.title)) ∧
    ((step t (.edit a) w).homeDeb = none →
      Eff.homepageCb (step t (.edit a) w).st.value (step t (.edit a) w).st.title
        ∈ (step t (.edit a) w).effs) := by
  obtain ⟨f1, f2, f3, f4, f5, f6, f7⟩ :=
    home_fireDue p w t hcb hprops hsave hput hget hargs hmem
  have hmount1 : (fireDue t w).st.mounted = true := by
    rw [f2]
    exact hmount
  cases hch : depsChanged a (fireDue t w).st with
  | true =>
    simp only [step, hmount1, hch, if_true]
    refine ⟨?_, ?_, ?_, ?_, ?_, ?_, ?_⟩
    · rw [runEditEffect_props]
      dsimp only
      exact f1
    · rw [runEditEffect_st]
      dsimp only
      rw [f2]
    · rw [runEditEffect_saveDeb]
      dsimp only
      rw [f1, hid]
      simpa using f3
    · rw [putReqs_runEditEffect]
      dsimp only
      exact f4
    · rw [getReqs_runEditEffect]
      dsimp only
      exact f5
    · intro dl args h
      rw [runEditEffect_homeDeb] at h
      rw [runEditEffect_st]
      dsimp only at h ⊢
      rw [f1, hid, hcb] at h
      simp at h
      exact h.2.symm
    · intro h
      rw [runEditEffect_homeDeb] at h
      dsimp only at h
      rw [f1, hid, hcb] at h
      simp at h
  | false =>
    obtain ⟨hv, hti⟩ := depsChanged_false a (fireDue t w).st hch
    simp only [step, hmount1, hch, Bool.false_eq_true, if_false, if_true]
    refine ⟨f1, by rw [f2], f3, f4, f5, ?_, ?_⟩
    · intro dl args h
      rw [hv, hti, f2]
      exact f6 dl args h
    · intro h
      rw [hv, hti, f2]
      exact f7 h

theorem home_fold (p : Props) (hid : noteIdTruthy p.noteId = false)
    (hcb : p.onContentChange = true) (edits : List (Nat × EditAction)) :
    ∀ (w : EditorWorld),
      w.props = p → w.st.mounted = true → w.saveDeb = none →
      putReqs w.effs = [] → getReqs w.effs = [] →
      (∀ dl args, w.homeDeb = some (dl, args) → args = (w.st.value, w.st.title)) →
      (w.homeDeb = none → Eff.homepageCb w.st.value w.st.title ∈ w.effs) →
      ((edits.foldl (fun acc te => step te.1 (.edit te.2) acc) w).props = p ∧
       (edits.foldl (fun acc te => step te.1 (.edit te.2) acc) w).st =
         edits.foldl (fun st te => applyEdit te.2 st) w.st ∧
       (edits.foldl (fun acc te => step te.1 (.edit te.2) acc) w).saveDeb = none ∧
       putReqs (edits.foldl (fun acc te => step te.1 (.edit te.2) acc) w).effs = [] ∧
       getReqs (edits.foldl (fun acc te => step te.1 (.edit te.2) acc) w).effs = [] ∧
       (∀ dl args,
         (edits.foldl (fun acc te => step te.1 (.edit te.2) acc) w).homeDeb =
           some (dl, args) →
         args = ((edits.foldl (fun acc te => step te.1 (.edit te.2) acc) w).st.value,
                 (edits.foldl (fun acc te => step te.1 (.edit te.2) acc) w).st.title)) ∧
       ((edits.foldl (fun acc te => step te.1 (.edit te.2) acc) w).homeDeb = none →
         Eff.homepageCb
             (edits.foldl (fun acc te => step te.1 (.edit te.2) acc) w).st.value
             (edits.foldl (fun acc te => step te.1 (.edit te.2) acc) w).st.title
           ∈ (edits.foldl (fun acc te => step te.1 (.edit te.2) acc) w).effs)) := by
  induction edits with
  | nil =>
    intro w hprops hmount hsave hput hget hargs hmem
    exact ⟨hprops, rfl, hsave, hput, hget, fun dl args h => hargs dl args h, hmem⟩
  | cons e rest ih =>
    intro w hprops hmount hsave hput hget hargs hmem
    obtain ⟨h1, h2, h3, h4, h5, h6, h7⟩ :=
      home_step p w e.1 e.2 hid hcb hprops hmount hsave hput hget hargs hmem
    have hmount1 : (step e.1 (.edit e.2) w).st.mounted = true := by
      rw [h2, applyEdit_mounted]
      exact hmount
    obtain ⟨g1, g2, g3, g4, g5, g6, g7⟩ :=
      ih (step e.1 (.edit e.2) w) h1 hmount1 h3 h4 h5 h6 h7
    rw [List.foldl_cons, List.foldl_cons]
    refine ⟨g1, ?_, g3, g4, g5, ?_, ?_⟩
    · rw [g2, h2]
    · intro dl args h
      exact g6 dl args h
    · intro h
      exact g7 h

/-- C6: for every sequence of state changes with `noteId` unset (falsy)
and a content-change callback supplied (homepage/preview mode), the
component schedules a debounced notification with a 500ms window — each
(re)trigger at time `now` arms the deadline `now + 500` and captures the
current content and title — and once it fires it delivers both the current
content and title to the caller; the whole session issues no backend
request (no GET and no PUT). -/
theorem homepage_debounced_notification (p : Props) (edits : List (Nat × EditAction))
    (now : Nat) (w : EditorWorld)
    (hid : noteIdTruthy p.noteId = false) (hcb : p.onContentChange = true)
    (hw : w.props = p) :
    getReqs (flush (runEdits p edits)).effs = [] ∧
    putReqs (flush (runEdits p edits)).effs = [] ∧
    Eff.homepageCb (finalState p edits).value (finalState p edits).title
      ∈ (flush (runEdits p edits)).effs ∧
    (runEditEffect now w).homeDeb = some (now + 500, (w.st.value, w.st.title)) := by
  have hrun : runEdits p edits =
      edits.foldl (fun acc te => step te.1 (.edit te.2) acc) (mount p) := by
    simp only [runEdits, runSession, List.foldl_map]
  have hargs0 : ∀ dl args, (mount p).homeDeb = some (dl, args) →
      args = ((mount p).st.value, (mount p).st.title) := by
    intro dl args h
    rw [mount_homeDeb_home p hid hcb] at h
    rw [mount_st]
    simp at h
    exact h.2.symm
  have hmem0 : (mount p).homeDeb = none →
      Eff.homepageCb (mount p).st.value (mount p).st.title ∈ (mount p).effs := by
    intro h
    rw [mount_homeDeb_home p hid hcb] at h
    cases h
  obtain ⟨g1, g2, g3, g4, g5, g6, g7⟩ :=
    home_fold p hid hcb edits (mount p) (mount_props p) (mount_mounted p)
      (mount_saveDeb_noId p hid) (mount_putReqs p) (mount_getReqs_noId p hid)
      hargs0 hmem0
  rw [hrun]
  have hfinal :
      (edits.foldl (fun acc te => step te.1 (.edit te.2) acc) (mount p)).st =
        finalState p edits := by
    rw [g2, mount_st]
    rfl
  have hflushsave :
      flush (edits.foldl (fun acc te => step te.1 (.edit te.2) acc) (mount p)) =
        fireHome (edits.foldl (fun acc te => step te.1 (.edit te.2) acc) (mount p)) := by
    unfold flush
    rw [fireSave_none _ g3]
  rw [hflushsave]
  refine ⟨?_, ?_, ?_, ?_⟩
  · rw [getReqs_fireHome]
    exact g5
  · rw [putReqs_fireHome]
    exact g4
  · cases hh : (edits.foldl (fun acc te => step te.1 (.edit te.2) acc) (mount p)).homeDeb with
    | none =>
      rw [fireHome_none _ hh]
      rw [← hfinal]
      exact g7 hh
    | some pr =>
      obtain ⟨dl0, args0⟩ := pr
      have := g6 dl0 args0 hh
      unfold fireHome
      rw [hh]
      dsimp only
      rw [g1, hcb]
      simp only [if_true]
      rw [← hfinal, this]
      exact List.mem_append_right _ (by simp)
  · rw [runEditEffect_homeDeb, hw]
    simp [hid, hcb]

/-- Witness for `homepage_debounced_notification`. -/
theorem homepage_debounced_notification_witness :
    noteIdTruthy pHome.noteId = false ∧ pHome.onContentChange = true ∧
    Eff.homepageCb (finalState pHome [(3, .setValue ("x"))]).value
        (finalState pHome [(3, .setValue ("x"))]).title
      ∈ (flush (runEdits pHome [(3, .setValue ("x"))])).effs :=
  ⟨by decide, by decide,
   (homepage_debounced_notification pHome [(3, .setValue ("x"))] 0 (mount pHome)
      (by decide) (by decide) (mount_props pHome)).2.2.1⟩

/-- Witness for `mount_schedules_unedited_save`. -/
theorem mount_schedules_unedited_save_witness :
    noteIdTruthy pInit.noteId = true ∧
    (mount pInit).saveDeb = some (1000, ⟨("C0"), ("T0"), ("NoteSpace")⟩) :=
  ⟨by decide,
   by
     have h := (mount_schedules_unedited_save pInit ⟨some ("T0"), some ("C0")⟩
       (by decide) (by decide)).2.1
     simpa [initState, pInit] using h⟩

end NoteSpace
